import Mathlib

/-!
# Verification of the `rapid` networking message layer

Shallow embedding of the wire codec, connection buffering, message-type
registry and routing dispatch of the `rapid` repository
(`src/rapid/networking/messages.py`, `src/rapid/networking/udp.py`,
`src/rapid/networking/clients.py`, `src/rapid/networking/routing.py`,
`src/rapid/net/tcp.py`, `src/skeleton/networking.py`, `src/skeleton/net.py`),
with theorems settling the specification claims about it.

Python `bytes` are modelled as `List (Fin 256)`; `int.to_bytes` /
`int.from_bytes` as fixed-width base-256 encodings with explicit byte order.
-/

namespace Rapid

/-- One byte, as stored in a Python `bytes` object. -/
abbrev Byte := Fin 256

/-- A Python `bytes` value. -/
abbrev Bytes := List Byte

/-- The `byteorder` argument of `int.to_bytes` / `int.from_bytes`. -/
inductive ByteOrder
  | big
  | little
deriving DecidableEq, Repr

/-- Big-endian fixed-width base-256 encoding: `int.to_bytes(n, w, "big")`.
Most significant byte first; the least significant byte `n % 256` comes last. -/
def toBytesBE : Nat → Nat → Bytes
  | _, 0 => []
  | n, w + 1 => toBytesBE (n / 256) w ++ [⟨n % 256, Nat.mod_lt _ (by norm_num)⟩]

/-- Big-endian decoding: `int.from_bytes(l, "big")`. -/
def fromBytesBE (l : Bytes) : Nat :=
  l.foldl (fun acc b => 256 * acc + b.val) 0

/-- `int.to_bytes(n, w, byteorder)`: the little-endian encoding is the
byte-reversal of the big-endian one. -/
def toBytes : ByteOrder → Nat → Nat → Bytes
  | .big, n, w => toBytesBE n w
  | .little, n, w => (toBytesBE n w).reverse

/-- `int.from_bytes(l, byteorder)`. -/
def fromBytes : ByteOrder → Bytes → Nat
  | .big, l => fromBytesBE l
  | .little, l => fromBytesBE l.reverse

theorem toBytesBE_length (n w : Nat) : (toBytesBE n w).length = w := by
  induction w generalizing n with
  | zero => rfl
  | succ k ih => simp [toBytesBE, ih]

theorem toBytes_length (bo : ByteOrder) (n w : Nat) : (toBytes bo n w).length = w := by
  cases bo <;> simp [toBytes, toBytesBE_length]

theorem fromBytesBE_append_singleton (l : Bytes) (b : Byte) :
    fromBytesBE (l ++ [b]) = 256 * fromBytesBE l + b.val := by
  simp [fromBytesBE]

/-- Decoding a big-endian encoding of `n < 256 ^ w` recovers `n`. -/
theorem fromBytesBE_toBytesBE (n w : Nat) (h : n < 256 ^ w) :
    fromBytesBE (toBytesBE n w) = n := by
  induction w generalizing n with
  | zero =>
    simp only [pow_zero, Nat.lt_one_iff] at h
    simp [toBytesBE, fromBytesBE, h]
  | succ k ih =>
    have hdiv : n / 256 < 256 ^ k := by
      rw [Nat.div_lt_iff_lt_mul (by norm_num : 0 < 256)]
      calc n < 256 ^ (k + 1) := h
        _ = 256 ^ k * 256 := by ring
    rw [toBytesBE, fromBytesBE_append_singleton, ih _ hdiv]
    show 256 * (n / 256) + n % 256 = n
    omega

/-- Re-encoding a decoded byte string of length `w` recovers the bytes. -/
theorem toBytesBE_fromBytesBE (l : Bytes) : toBytesBE (fromBytesBE l) l.length = l := by
  induction l using List.reverseRecOn with
  | nil => rfl
  | append_singleton xs b ih =>
    rw [fromBytesBE_append_singleton]
    have hlen : (xs ++ [b]).length = xs.length + 1 := by simp
    rw [hlen, toBytesBE]
    have hb : b.val < 256 := b.isLt
    have hdiv : (256 * fromBytesBE xs + b.val) / 256 = fromBytesBE xs := by omega
    have hmod : (256 * fromBytesBE xs + b.val) % 256 = b.val := by omega
    rw [hdiv, ih]
    congr 1
    simp [hmod]

theorem fromBytesBE_lt (l : Bytes) : fromBytesBE l < 256 ^ l.length := by
  induction l using List.reverseRecOn with
  | nil => simp [fromBytesBE]
  | append_singleton xs b ih =>
    rw [fromBytesBE_append_singleton]
    have hb : b.val < 256 := b.isLt
    have : (xs ++ [b]).length = xs.length + 1 := by simp
    rw [this, pow_succ]
    omega

theorem fromBytes_toBytes (bo : ByteOrder) (n w : Nat) (h : n < 256 ^ w) :
    fromBytes bo (toBytes bo n w) = n := by
  cases bo <;> simp [toBytes, fromBytes, fromBytesBE_toBytesBE n w h]

theorem toBytes_fromBytes (bo : ByteOrder) (l : Bytes) :
    toBytes bo (fromBytes bo l) l.length = l := by
  cases bo with
  | big => exact toBytesBE_fromBytesBE l
  | little =>
    simp only [toBytes, fromBytes]
    rw [show l.length = l.reverse.length by simp, toBytesBE_fromBytesBE l.reverse]
    simp

theorem fromBytes_lt (bo : ByteOrder) (l : Bytes) : fromBytes bo l < 256 ^ l.length := by
  cases bo with
  | big => exact fromBytesBE_lt l
  | little =>
    simpa using fromBytesBE_lt l.reverse

/-! ## Stream wire codec

`MessageSerializer` from `src/rapid/networking/messages.py` (identical in
`src/rapid/net/tcp.py`).  `_build_slices` lays the header out as
`msg_type = buf[0 : type_size_bytes]`,
`msg_length = buf[type_size_bytes : type_size_bytes + data_size_bytes]`,
`_total = buf[0 : type_size_bytes + data_size_bytes]`; those slices are
inlined below as `take`/`drop`. -/

structure MessageSerializer where
  type_size_bytes : Nat := 1
  data_size_bytes : Nat := 2
  byteorder : ByteOrder := .big

/-- `fixed_slices["_total"].stop`: the byte length of the fixed header. -/
def MessageSerializer.headerSize (s : MessageSerializer) : Nat :=
  s.type_size_bytes + s.data_size_bytes

/-- `MessageSerializer.pack`: type code, then payload length, then payload. -/
def MessageSerializer.pack (s : MessageSerializer) (type : Nat) (data : Bytes) : Bytes :=
  toBytes s.byteorder type s.type_size_bytes ++
    toBytes s.byteorder data.length s.data_size_bytes ++ data

/-- `MessageSerializer.unpack`: returns `(frame?, remaining buffer)`. -/
def MessageSerializer.unpack (s : MessageSerializer) (data : Bytes) :
    Option (Nat × Bytes) × Bytes :=
  if data.length < s.headerSize then (none, data)
  else
    let message_length := fromBytes s.byteorder ((data.drop s.type_size_bytes).take s.data_size_bytes)
    let data_stop := s.headerSize + message_length
    if data.length < data_stop then (none, data)
    else
      let message_type := fromBytes s.byteorder (data.take s.type_size_bytes)
      let message_data := (data.drop s.headerSize).take message_length
      ((message_type, message_data), data.drop data_stop)

/-! ### List helpers for slice reasoning -/

theorem take_len_append {α : Type} (a b : List α) {n : Nat} (h : a.length = n) :
    (a ++ b).take n = a := by
  subst h
  simp

theorem drop_len_append {α : Type} (a b : List α) {n : Nat} (h : a.length = n) :
    (a ++ b).drop n = b := by
  subst h
  simp

/-! ### Structure of packed frames -/

theorem pack_length (s : MessageSerializer) (type : Nat) (payload : Bytes) :
    (s.pack type payload).length = s.headerSize + payload.length := by
  simp [MessageSerializer.pack, MessageSerializer.headerSize, toBytes_length]
  omega

/-- The `msg_type` slice of a packed frame (with anything appended). -/
theorem pack_append_type_slice (s : MessageSerializer) (type : Nat) (payload rest : Bytes) :
    (s.pack type payload ++ rest).take s.type_size_bytes =
      toBytes s.byteorder type s.type_size_bytes := by
  rw [MessageSerializer.pack, List.append_assoc, List.append_assoc,
    take_len_append _ _ (toBytes_length _ _ _)]

/-- The `msg_length` slice of a packed frame (with anything appended). -/
theorem pack_append_length_slice (s : MessageSerializer) (type : Nat) (payload rest : Bytes) :
    ((s.pack type payload ++ rest).drop s.type_size_bytes).take s.data_size_bytes =
      toBytes s.byteorder payload.length s.data_size_bytes := by
  rw [MessageSerializer.pack, List.append_assoc, List.append_assoc,
    drop_len_append _ _ (toBytes_length _ _ _),
    take_len_append _ _ (toBytes_length _ _ _)]

/-- Unpacking a buffer that starts with a whole packed frame yields that frame
and leaves exactly the appended rest. -/
theorem unpack_pack_append (s : MessageSerializer) (type : Nat) (payload rest : Bytes)
    (ht : type < 256 ^ s.type_size_bytes) (hp : payload.length < 256 ^ s.data_size_bytes) :
    s.unpack (s.pack type payload ++ rest) = (some (type, payload), rest) := by
  have hA := toBytes_length s.byteorder type s.type_size_bytes
  have hB := toBytes_length s.byteorder payload.length s.data_size_bytes
  have hbuflen : (s.pack type payload ++ rest).length =
      s.headerSize + payload.length + rest.length := by
    simp [pack_length]
  have hc1 : ¬ (s.pack type payload ++ rest).length < s.headerSize := by
    rw [hbuflen]; omega
  have hlenfield : fromBytes s.byteorder
      (((s.pack type payload ++ rest).drop s.type_size_bytes).take s.data_size_bytes) =
      payload.length := by
    rw [pack_append_length_slice, fromBytes_toBytes _ _ _ hp]
  have hc2 : ¬ (s.pack type payload ++ rest).length < s.headerSize + payload.length := by
    rw [hbuflen]; omega
  have htype : fromBytes s.byteorder ((s.pack type payload ++ rest).take s.type_size_bytes)
      = type := by
    rw [pack_append_type_slice, fromBytes_toBytes _ _ _ ht]
  have hpayload : ((s.pack type payload ++ rest).drop s.headerSize).take payload.length
      = payload := by
    rw [MessageSerializer.pack, List.append_assoc,
      drop_len_append _ _ (by simp [MessageSerializer.headerSize, hA, hB]),
      take_len_append _ _ rfl]
  have hrest : (s.pack type payload ++ rest).drop (s.headerSize + payload.length) = rest := by
    exact drop_len_append _ _ (pack_length s type payload)
  simp only [MessageSerializer.unpack, hlenfield]
  rw [if_neg hc1, if_neg hc2, htype, hpayload, hrest]

/-- Unpacking a buffer on which `unpack` reports a frame: the frame re-packs to
the consumed prefix and the remainder is strictly shorter (when the header is
at least one byte wide). -/
theorem unpack_some_exact (s : MessageSerializer) (h1 : 1 ≤ s.type_size_bytes)
    (b : Bytes) (t : Nat) (p r : Bytes) (h : s.unpack b = (some (t, p), r)) :
    s.pack t p ++ r = b ∧ r.length < b.length := by
  simp only [MessageSerializer.unpack] at h
  split at h
  · simp at h
  · rename_i hge
    split at h
    · simp at h
    · rename_i hge2
      simp only [Prod.mk.injEq, Option.some.injEq] at h
      obtain ⟨⟨ht, hp⟩, hr⟩ := h
      push_neg at hge hge2
      have htake_t : (b.take s.type_size_bytes).length = s.type_size_bytes := by
        rw [List.length_take]
        have : s.type_size_bytes ≤ b.length := by
          have := hge; unfold MessageSerializer.headerSize at this; omega
        omega
      have htake_l : ((b.drop s.type_size_bytes).take s.data_size_bytes).length
          = s.data_size_bytes := by
        rw [List.length_take, List.length_drop]
        have := hge; unfold MessageSerializer.headerSize at this
        omega
      set L := fromBytes s.byteorder ((b.drop s.type_size_bytes).take s.data_size_bytes) with hL
      have hplen : p.length = L := by
        rw [← hp, List.length_take, List.length_drop]
        unfold MessageSerializer.headerSize at hge2 ⊢
        omega
      have hA : toBytes s.byteorder t s.type_size_bytes = b.take s.type_size_bytes := by
        have hrt := toBytes_fromBytes s.byteorder (b.take s.type_size_bytes)
        rw [htake_t, ht] at hrt
        exact hrt
      have hB : toBytes s.byteorder p.length s.data_size_bytes
          = (b.drop s.type_size_bytes).take s.data_size_bytes := by
        have hrt := toBytes_fromBytes s.byteorder
          ((b.drop s.type_size_bytes).take s.data_size_bytes)
        rw [htake_l] at hrt
        rw [hplen, hL]
        exact hrt
      constructor
      · rw [MessageSerializer.pack, hA, hB, ← hp, ← hr]
        simp only [List.append_assoc]
        have step1 : ((b.drop s.headerSize).take L) ++ b.drop (s.headerSize + L)
            = b.drop s.headerSize := by
          rw [← List.drop_drop, List.take_append_drop]
        have step2 : (b.drop s.type_size_bytes).take s.data_size_bytes ++ b.drop s.headerSize
            = b.drop s.type_size_bytes := by
          rw [show s.headerSize = s.type_size_bytes + s.data_size_bytes from rfl,
            ← List.drop_drop, List.take_append_drop]
        calc b.take s.type_size_bytes ++
              ((b.drop s.type_size_bytes).take s.data_size_bytes ++
                ((b.drop s.headerSize).take L ++ b.drop (s.headerSize + L)))
            = b.take s.type_size_bytes ++
              ((b.drop s.type_size_bytes).take s.data_size_bytes ++ b.drop s.headerSize) := by
              rw [step1]
          _ = b.take s.type_size_bytes ++ b.drop s.type_size_bytes := by rw [step2]
          _ = b := List.take_append_drop _ _
      · rw [← hr, List.length_drop]
        unfold MessageSerializer.headerSize at hge hge2 ⊢
        omega

/-- When `unpack` reports no frame, the buffer is returned unchanged. -/
theorem unpack_none_eq (s : MessageSerializer) (b b' : Bytes)
    (h : s.unpack b = (none, b')) : b' = b := by
  simp only [MessageSerializer.unpack] at h
  split at h
  · simpa using h.symm
  · split at h
    · simpa using h.symm
    · simp at h

/-- The `msg_length` slice of a packed frame. -/
theorem pack_length_slice (s : MessageSerializer) (type : Nat) (payload : Bytes) :
    ((s.pack type payload).drop s.type_size_bytes).take s.data_size_bytes =
      toBytes s.byteorder payload.length s.data_size_bytes := by
  simpa using pack_append_length_slice s type payload []

/-! ## Connection receive loop

`MessageProtocol.data_received` (`src/rapid/networking/messages.py`, identical
in `TCPMessageProtocol.data_received` of `src/rapid/net/tcp.py`) appends the
incoming bytes to the receive buffer and then loops `unpack`, invoking
`handler.on_recv_message` once per extracted frame, until `unpack` reports no
complete frame.  The loop is modelled with explicit fuel; one unit of fuel per
buffered byte plus one is always enough to reach the `none` state because each
extracted frame consumes at least one header byte (`unpack_some_exact`). -/

/-- The `while message is not None` loop of `data_received`: returns the
extracted frames in extraction order (the `on_recv_message` invocations) and
the final retained buffer. -/
def drain (s : MessageSerializer) : Nat → Bytes → List (Nat × Bytes) × Bytes
  | 0, buf => ([], buf)
  | fuel + 1, buf =>
    match s.unpack buf with
    | (none, b) => ([], b)
    | (some m, rest) =>
      let res := drain s fuel rest
      (m :: res.1, res.2)

/-- `MessageProtocol.data_received`: append `data` to the buffer, then drain. -/
def data_received (s : MessageSerializer) (buffer data : Bytes) :
    List (Nat × Bytes) × Bytes :=
  drain s ((buffer ++ data).length + 1) (buffer ++ data)

theorem drain_spec (s : MessageSerializer) (h1 : 1 ≤ s.type_size_bytes) :
    ∀ fuel buf, buf.length < fuel →
      s.unpack (drain s fuel buf).2 = (none, (drain s fuel buf).2) ∧
      buf = ((drain s fuel buf).1.map (fun m => s.pack m.1 m.2)).flatten
        ++ (drain s fuel buf).2 := by
  intro fuel
  induction fuel with
  | zero => intro buf h; omega
  | succ k ih =>
    intro buf hfuel
    rcases hu : s.unpack buf with ⟨m?, rest⟩
    cases m? with
    | none =>
      have hrest : rest = buf := unpack_none_eq s buf rest hu
      simp only [drain, hu]
      subst hrest
      exact ⟨hu, by simp⟩
    | some m =>
      obtain ⟨hre, hlt⟩ := unpack_some_exact s h1 buf m.1 m.2 rest (by
        rw [hu])
      have hfuel' : rest.length < k := by omega
      obtain ⟨ih1, ih2⟩ := ih rest hfuel'
      simp only [drain, hu]
      refine ⟨ih1, ?_⟩
      calc buf = s.pack m.1 m.2 ++ rest := hre.symm
        _ = s.pack m.1 m.2 ++
            (((drain s k rest).1.map (fun m => s.pack m.1 m.2)).flatten
              ++ (drain s k rest).2) := by rw [← ih2]
        _ = ((m :: (drain s k rest).1).map (fun m => s.pack m.1 m.2)).flatten
              ++ (drain s k rest).2 := by simp

/-! ## Claim theorems for the stream codec -/

/-- C1.  Stream-codec round trip: for every codec configuration and every
`(type, payload)` within the configured width bounds (the zero-length payload
included), `unpack (pack type payload)` returns the frame together with an
empty remaining buffer. -/
theorem stream_codec_roundtrip (s : MessageSerializer) (type : Nat) (payload : Bytes)
    (ht : type < 256 ^ s.type_size_bytes) (hp : payload.length < 256 ^ s.data_size_bytes) :
    s.unpack (s.pack type payload) = (some (type, payload), []) := by
  simpa using unpack_pack_append s type payload [] ht hp

/-- Witness for C1: the zero-length payload case `pack(3, b"")` of the default
configuration round-trips. -/
theorem stream_codec_roundtrip_witness :
    (⟨1, 2, .big⟩ : MessageSerializer).unpack
      ((⟨1, 2, .big⟩ : MessageSerializer).pack 3 []) = (some (3, []), []) :=
  stream_codec_roundtrip ⟨1, 2, .big⟩ 3 [] (by norm_num) (by norm_num)

/-- C2.  Partial delivery: `unpack` returns `(none, buffer)` with the buffer
unchanged whenever the buffer is shorter than the fixed header, or shorter
than the header plus the decoded length; in particular on every proper prefix
of a packed frame. -/
theorem stream_partial_delivery (s : MessageSerializer) (type : Nat) (payload : Bytes)
    (ht : type < 256 ^ s.type_size_bytes) (hp : payload.length < 256 ^ s.data_size_bytes) :
    (∀ buf : Bytes, buf.length < s.headerSize → s.unpack buf = (none, buf)) ∧
    (∀ buf : Bytes, s.headerSize ≤ buf.length →
      buf.length < s.headerSize +
        fromBytes s.byteorder ((buf.drop s.type_size_bytes).take s.data_size_bytes) →
      s.unpack buf = (none, buf)) ∧
    (∀ n : Nat, n < (s.pack type payload).length →
      s.unpack ((s.pack type payload).take n) = (none, (s.pack type payload).take n)) := by
  refine ⟨?_, ?_, ?_⟩
  · intro buf hlt
    simp only [MessageSerializer.unpack]
    rw [if_pos hlt]
  · intro buf hge hlt
    simp only [MessageSerializer.unpack]
    rw [if_neg (by omega), if_pos hlt]
  · intro n hn
    have hplen := pack_length s type payload
    by_cases hcase : n < s.headerSize
    · have hlen : ((s.pack type payload).take n).length = n := by
        rw [List.length_take]; omega
      simp only [MessageSerializer.unpack]
      rw [if_pos (by rw [hlen]; exact hcase)]
    · push_neg at hcase
      have hlen : ((s.pack type payload).take n).length = n := by
        rw [List.length_take]; omega
      have hfield : (((s.pack type payload).take n).drop s.type_size_bytes).take
            s.data_size_bytes
          = ((s.pack type payload).drop s.type_size_bytes).take s.data_size_bytes := by
        rw [List.drop_take, List.take_take, Nat.min_eq_left (by
          unfold MessageSerializer.headerSize at hcase
          omega)]
      simp only [MessageSerializer.unpack]
      rw [if_neg (by rw [hlen]; omega), hfield, pack_length_slice,
        fromBytes_toBytes _ _ _ hp, if_pos (by rw [hlen]; omega)]

/-- Witness for C2: feeding the first 7 of the 8 bytes of `pack(5, b"hello")`
returns `(none, buffer so far)`. -/
theorem stream_partial_delivery_witness :
    (⟨1, 2, .big⟩ : MessageSerializer).unpack
        (((⟨1, 2, .big⟩ : MessageSerializer).pack 5 [104, 101, 108, 108, 111]).take 7)
      = (none, ((⟨1, 2, .big⟩ : MessageSerializer).pack 5 [104, 101, 108, 108, 111]).take 7) :=
  (stream_partial_delivery ⟨1, 2, .big⟩ 5 [104, 101, 108, 108, 111]
    (by norm_num) (by norm_num)).2.2 7 (by decide)

/-- C3.  Batched frames: unpacking a packed frame with any extra bytes appended
yields the frame and leaves exactly the extra bytes as the remainder. -/
theorem stream_batched_frames (s : MessageSerializer) (type : Nat) (payload rest : Bytes)
    (ht : type < 256 ^ s.type_size_bytes) (hp : payload.length < 256 ^ s.data_size_bytes) :
    s.unpack (s.pack type payload ++ rest) = (some (type, payload), rest) :=
  unpack_pack_append s type payload rest ht hp

/-- Witness for C3: `pack(1, b"a") ++ pack(2, b"bb")` unpacks to `(1, b"a")`
with remainder `pack(2, b"bb")`. -/
theorem stream_batched_frames_witness :
    (⟨1, 2, .big⟩ : MessageSerializer).unpack
        ((⟨1, 2, .big⟩ : MessageSerializer).pack 1 [97]
          ++ (⟨1, 2, .big⟩ : MessageSerializer).pack 2 [98, 98])
      = (some (1, [97]), (⟨1, 2, .big⟩ : MessageSerializer).pack 2 [98, 98]) :=
  stream_batched_frames ⟨1, 2, .big⟩ 1 [97] _ (by norm_num) (by norm_num)

/-- C10.  Whenever stream `unpack` reports a frame, re-encoding the frame and
appending the remainder reproduces the input buffer, and the remainder is
strictly shorter than the input (so repeated unpacking terminates); `unpack`
itself is a total function on byte strings. -/
theorem stream_unpack_exact_frame (s : MessageSerializer)
    (h1 : 1 ≤ s.type_size_bytes) (h2 : 1 ≤ s.data_size_bytes)
    (b : Bytes) (t : Nat) (p r : Bytes) (h : s.unpack b = (some (t, p), r)) :
    s.pack t p ++ r = b ∧ r.length < b.length :=
  unpack_some_exact s h1 b t p r h

/-- Witness for C10: on the buffer `[7, 0, 2, 9, 9, 5]` the default codec
extracts frame `(7, [9, 9])`, re-encoding reproduces the buffer, and the
remainder `[5]` is shorter. -/
theorem stream_unpack_exact_frame_witness :
    (⟨1, 2, .big⟩ : MessageSerializer).pack 7 [9, 9] ++ [5] = [7, 0, 2, 9, 9, 5] ∧
    ([5] : Bytes).length < ([7, 0, 2, 9, 9, 5] : Bytes).length :=
  stream_unpack_exact_frame ⟨1, 2, .big⟩ (by norm_num) (by norm_num)
    [7, 0, 2, 9, 9, 5] 7 [9, 9] [5] (by decide)

/-- C4.  Receive-buffer invariant: after `data_received` appends the incoming
bytes and loops `unpack`, the retained buffer holds no complete undelivered
frame (`unpack` on it returns `none`), and the frames delivered to the handler
are, in order, exactly the complete frames of the byte stream: their packed
encodings concatenated with the retained buffer reproduce the whole stream. -/
theorem data_received_invariant (s : MessageSerializer)
    (h1 : 1 ≤ s.type_size_bytes) (buffer data : Bytes) :
    s.unpack (data_received s buffer data).2 = (none, (data_received s buffer data).2) ∧
    buffer ++ data =
      ((data_received s buffer data).1.map (fun m => s.pack m.1 m.2)).flatten
        ++ (data_received s buffer data).2 :=
  drain_spec s h1 ((buffer ++ data).length + 1) (buffer ++ data) (Nat.lt_succ_self _)

/-- Witness for C4: receiving `pack(1, b"a") ++ pack(2, b"bb")` plus a partial
header byte on an empty buffer: the two frames are delivered and the retained
buffer holds only the partial byte, with no complete frame. -/
theorem data_received_invariant_witness :
    (⟨1, 2, .big⟩ : MessageSerializer).unpack
        (data_received ⟨1, 2, .big⟩ [] [1, 0, 1, 97, 2, 0, 2, 98, 98, 6]).2
      = (none, (data_received ⟨1, 2, .big⟩ [] [1, 0, 1, 97, 2, 0, 2, 98, 98, 6]).2) ∧
    ([] : Bytes) ++ [1, 0, 1, 97, 2, 0, 2, 98, 98, 6] =
      ((data_received ⟨1, 2, .big⟩ [] [1, 0, 1, 97, 2, 0, 2, 98, 98, 6]).1.map
        (fun m => (⟨1, 2, .big⟩ : MessageSerializer).pack m.1 m.2)).flatten
        ++ (data_received ⟨1, 2, .big⟩ [] [1, 0, 1, 97, 2, 0, 2, 98, 98, 6]).2 :=
  data_received_invariant ⟨1, 2, .big⟩ (by norm_num) [] [1, 0, 1, 97, 2, 0, 2, 98, 98, 6]

/-! ## Datagram wire codec

`MessageSerializer` from `src/rapid/networking/udp.py`: a frame is the
fixed-width type code followed immediately by the payload; there is no length
field and no partial-frame state. -/

namespace Udp

structure MessageSerializer where
  type_size_bytes : Nat := 1
  byteorder : ByteOrder := .big

/-- `MessageSerializer.pack` (datagram): type code, then payload. -/
def MessageSerializer.pack (s : MessageSerializer) (type : Nat) (data : Bytes) : Bytes :=
  toBytes s.byteorder type s.type_size_bytes ++ data

/-- `MessageSerializer.unpack` (datagram): single-shot decode of one whole
datagram; `msg_type = data[0 : type_size_bytes]`, payload is the rest. -/
def MessageSerializer.unpack (s : MessageSerializer) (data : Bytes) : Nat × Bytes :=
  (fromBytes s.byteorder (data.take s.type_size_bytes), data.drop s.type_size_bytes)

end Udp

/-- C9.  Datagram codec: `pack` is exactly the fixed-width type encoding
followed by the payload (no length field), and `unpack` of the whole datagram
is a single-shot total decode returning exactly `(type, payload)`. -/
theorem datagram_codec_roundtrip (s : Udp.MessageSerializer) (type : Nat) (payload : Bytes)
    (ht : type < 256 ^ s.type_size_bytes) :
    s.pack type payload = toBytes s.byteorder type s.type_size_bytes ++ payload ∧
    s.unpack (s.pack type payload) = (type, payload) := by
  refine ⟨rfl, ?_⟩
  unfold Udp.MessageSerializer.unpack Udp.MessageSerializer.pack
  rw [take_len_append _ _ (toBytes_length _ _ _),
    drop_len_append _ _ (toBytes_length _ _ _), fromBytes_toBytes _ _ _ ht]

/-- Witness for C9: datagram `pack(4, [1, 2, 3])` is `[4, 1, 2, 3]` and decodes
back in one shot. -/
theorem datagram_codec_roundtrip_witness :
    (⟨1, .big⟩ : Udp.MessageSerializer).pack 4 [1, 2, 3]
        = toBytes .big 4 1 ++ [1, 2, 3] ∧
    (⟨1, .big⟩ : Udp.MessageSerializer).unpack
        ((⟨1, .big⟩ : Udp.MessageSerializer).pack 4 [1, 2, 3]) = (4, [1, 2, 3]) :=
  datagram_codec_roundtrip ⟨1, .big⟩ 4 [1, 2, 3] (by norm_num)

/-! ## Message type registry

`AbstractMessage.__init_subclass__` in `src/skeleton/networking.py` and
`src/skeleton/net.py`: the process-wide `CLS_BY_TYPE` dictionary maps type
codes to message classes (classes abstracted by identifiers).  Registration
asserts, in order: the code is an `int`; the code is not already registered;
the code lies in `[0, MAX_MESSAGE_TYPES)`.  The two modules disagree on
`MAX_MESSAGE_TYPES`: `net.py` computes `256 ** TYPE_SIZE_BYTES`,
`networking.py` computes `8 ** SERIALIZER.type_size_bytes`. -/

/-- Failure of the `assert` statements in `__init_subclass__`
(an `AssertionError` at class-declaration time). -/
inductive RegistrationError
  | duplicateTypeCode
  | typeOutOfRange
deriving DecidableEq, Repr

/-- The `CLS_BY_TYPE` dictionary. -/
abbrev Registry := List (Int × Nat)

/-- `AbstractMessage.__init_subclass__`: register a class under its declared
`message_type`, failing fast at declaration time. -/
def registerMessage (maxMessageTypes : Nat) (registry : Registry)
    (message_type : Int) (cls : Nat) : Except RegistrationError Registry :=
  if (registry.lookup message_type).isSome then .error .duplicateTypeCode
  else if 0 ≤ message_type ∧ message_type < maxMessageTypes then
    .ok ((message_type, cls) :: registry)
  else .error .typeOutOfRange

namespace SkeletonNet

/-- `MAX_MESSAGE_TYPES = 256 ** TYPE_SIZE_BYTES` with `TYPE_SIZE_BYTES = 1`
(`src/skeleton/net.py`). -/
def MAX_MESSAGE_TYPES : Nat := 256 ^ 1

def register (registry : Registry) (message_type : Int) (cls : Nat) :
    Except RegistrationError Registry :=
  registerMessage MAX_MESSAGE_TYPES registry message_type cls

end SkeletonNet

namespace SkeletonNetworking

/-- `MAX_MESSAGE_TYPES = 8 ** SERIALIZER.type_size_bytes` with
`type_size_bytes = 1` (`src/skeleton/networking.py`). -/
def MAX_MESSAGE_TYPES : Nat := 8 ^ 1

def register (registry : Registry) (message_type : Int) (cls : Nat) :
    Except RegistrationError Registry :=
  registerMessage MAX_MESSAGE_TYPES registry message_type cls

end SkeletonNetworking

/-- C5.  The `skeleton/networking.py` registry rejects declared type code 100
with a range error even though 100 is an unregistered integer inside
`[0, 256 ^ 1)`: that module computes its bound as `8 ** type_size_bytes`
although its serializer encodes the type in `type_size_bytes = 1` byte
(256 values); the sibling `skeleton/net.py` registry, which computes
`256 ** TYPE_SIZE_BYTES`, accepts the same declaration. -/
theorem registry_range_bug :
    SkeletonNetworking.register [] 100 0 = .error .typeOutOfRange ∧
    (0 ≤ (100 : Int) ∧ (100 : Int) < 256 ^ 1) ∧
    ([] : Registry).lookup 100 = none ∧
    SkeletonNet.register [] 100 0 = .ok [(100, 0)] := by
  refine ⟨?_, ⟨by decide, by decide⟩, rfl, ?_⟩
  · simp [SkeletonNetworking.register, registerMessage, SkeletonNetworking.MAX_MESSAGE_TYPES]
  · simp [SkeletonNet.register, registerMessage, SkeletonNet.MAX_MESSAGE_TYPES]

/-! ## Resolving and dispatching by type code -/

/-- The failure of `CLS_BY_TYPE[message_type]` on an unregistered code
(a `KeyError`; the spec names it `UnknownMessageTypeError`). -/
inductive UnknownMessageTypeError
  | unknownMessageType
deriving DecidableEq, Repr

/-- The lookup `CLS_BY_TYPE[message_type]` performed by `unpack`
(`src/skeleton/networking.py`) and `_unpack` (`src/skeleton/net.py`). -/
def resolve (registry : Registry) (message_type : Int) :
    Except UnknownMessageTypeError Nat :=
  match registry.lookup message_type with
  | some cls => .ok cls
  | none => .error .unknownMessageType

/-- `_unpack(message_type, message_data)`: resolve the class, then decode with
the class's own `unpack` (abstracted as `clsUnpack`); an unresolved code
propagates the error to the caller — there is no handler around the lookup. -/
def skeletonUnpack (registry : Registry) (clsUnpack : Nat → Bytes → Nat)
    (message_type : Int) (message_data : Bytes) :
    Except UnknownMessageTypeError (Nat × Nat) :=
  match resolve registry message_type with
  | .ok cls => .ok (cls, clsUnpack cls message_data)
  | .error e => .error e

/-- C6.  Resolving an unregistered type code fails with
`UnknownMessageTypeError`, and the failure propagates through the dispatch
path (`_unpack`) to its caller; every registered code resolves to the
registered class. -/
theorem resolve_unknown_type (registry : Registry) (clsUnpack : Nat → Bytes → Nat)
    (message_type : Int) (message_data : Bytes) :
    (registry.lookup message_type = none →
      resolve registry message_type = .error .unknownMessageType ∧
      skeletonUnpack registry clsUnpack message_type message_data
        = .error .unknownMessageType) ∧
    (∀ cls, registry.lookup message_type = some cls →
      resolve registry message_type = .ok cls) := by
  constructor
  · intro h
    constructor <;> simp [resolve, skeletonUnpack, h]
  · intro cls h
    simp [resolve, h]

/-- Witness for C6: in a registry holding only code 1, resolving 99 fails and
the failure propagates through `_unpack`, while code 1 resolves to its class. -/
theorem resolve_unknown_type_witness :
    (resolve [((1 : Int), 10)] 99 = .error .unknownMessageType ∧
      skeletonUnpack [((1 : Int), 10)] (fun _ _ => 0) 99 []
        = .error .unknownMessageType) ∧
    resolve [((1 : Int), 10)] 1 = .ok 10 :=
  ⟨(resolve_unknown_type [((1 : Int), 10)] (fun _ _ => 0) 99 []).1 (by decide),
   (resolve_unknown_type [((1 : Int), 10)] (fun _ _ => 0) 1 []).2 10 (by decide)⟩

/-! ## Connection / Client send

`Client.send` (`src/rapid/networking/clients.py`) asserts `self.connected`
before delegating; `MessageProtocol.send`
(`src/rapid/networking/messages.py`) asserts `self.transport` and writes
exactly `serializer.pack(type, data)` to the transport. -/

/-- The failing `assert self.connected` / `assert self.transport`
(the spec's `NotConnectedError`). -/
inductive NotConnectedError
  | notConnected
deriving DecidableEq, Repr

/-- A stream transport, recording the bytes written to it so far. -/
structure Transport where
  written : Bytes
deriving DecidableEq, Repr

/-- `MessageProtocol` state: the optional transport and the receive buffer. -/
structure MessageProtocolState where
  transport : Option Transport
  buffer : Bytes
deriving DecidableEq, Repr

/-- `MessageProtocol.send`: `assert self.transport`, pack,
`self.transport.write(packed)`. -/
def protocolSend (s : MessageSerializer) (st : MessageProtocolState)
    (type : Nat) (data : Bytes) : Except NotConnectedError MessageProtocolState :=
  match st.transport with
  | none => .error .notConnected
  | some tr => .ok { st with transport := some ⟨tr.written ++ s.pack type data⟩ }

/-- `Client` state: the optional protocol it owns. -/
structure ClientState where
  protocol : Option MessageProtocolState
deriving DecidableEq, Repr

/-- `Client.connected`: the protocol exists and its transport is set. -/
def ClientState.connected (c : ClientState) : Bool :=
  match c.protocol with
  | none => false
  | some p => p.transport.isSome

/-- `Client.send`: `assert self.connected`, then `self.protocol.send`. -/
def clientSend (s : MessageSerializer) (c : ClientState) (type : Nat) (data : Bytes) :
    Except NotConnectedError ClientState :=
  if c.connected then
    match c.protocol with
    | some p => (protocolSend s p type data).map (fun pn => ⟨some pn⟩)
    | none => .error .notConnected
  else .error .notConnected

/-- C7.  `send` on a client that is not connected fails with
`NotConnectedError` and writes nothing (the state is returned unchanged only
inside the error, no transport write happens); on a connected client it
appends exactly `serializer.pack(type, data)` to the transport's written
bytes. -/
theorem send_requires_connected (s : MessageSerializer) (c : ClientState)
    (type : Nat) (data : Bytes) :
    (c.connected = false → clientSend s c type data = .error .notConnected) ∧
    (∀ p tr, c.protocol = some p → p.transport = some tr →
      clientSend s c type data =
        .ok ⟨some ⟨some ⟨tr.written ++ s.pack type data⟩, p.buffer⟩⟩) := by
  constructor
  · intro h
    simp [clientSend, h]
  · intro p tr hp htr
    have hc : c.connected = true := by
      simp [ClientState.connected, hp, htr]
    simp [clientSend, hc, hp, protocolSend, htr, Except.map]

/-- Witness for C7: a disconnected client's `send` fails; a connected client
with an empty transport writes exactly the packed frame. -/
theorem send_requires_connected_witness :
    clientSend ⟨1, 2, .big⟩ ⟨none⟩ 1 [2] = .error .notConnected ∧
    clientSend ⟨1, 2, .big⟩ ⟨some ⟨some ⟨[]⟩, []⟩⟩ 1 [2]
      = .ok ⟨some ⟨some ⟨[] ++ (⟨1, 2, .big⟩ : MessageSerializer).pack 1 [2]⟩, []⟩⟩ :=
  ⟨(send_requires_connected ⟨1, 2, .big⟩ ⟨none⟩ 1 [2]).1 rfl,
   (send_requires_connected ⟨1, 2, .big⟩ ⟨some ⟨some ⟨[]⟩, []⟩⟩ 1 [2]).2
     ⟨some ⟨[]⟩, []⟩ ⟨[]⟩ rfl rfl⟩

/-! ## Routing dispatch

`RoutingClient.on_recv_message` (`src/rapid/networking/routing.py`): decode
via the injected `unpack` function, look the message class up in the route
table `_routes` built by `_build_routes`, and call the bound handler if one
exists; otherwise do nothing.  Handlers are abstracted by identifiers; a
returned invocation `(handler, message)` is the single handler call made. -/

/-- The route table `message class -> bound handler`. -/
abbrev RouteTable := List (Nat × Nat)

/-- `RoutingClient.on_recv_message`. -/
def routingOnRecvMessage {M : Type} (routes : RouteTable)
    (unpackFn : Int → Bytes → Nat × M) (type : Int) (data : Bytes) :
    Option (Nat × M) :=
  let dec := unpackFn type data
  match routes.lookup dec.1 with
  | some handler => some (handler, dec.2)
  | none => none

/-- C8.  Route dispatch: when the decoded message class has a bound handler in
the route table, exactly that handler is invoked once with the decoded
message; when the class has no bound handler, no handler is invoked and no
error is raised (the dispatch function is total and returns `none`). -/
theorem route_dispatch {M : Type} (routes : RouteTable)
    (unpackFn : Int → Bytes → Nat × M) (type : Int) (data : Bytes)
    (cls : Nat) (msg : M) (hdec : unpackFn type data = (cls, msg)) :
    (∀ handler, routes.lookup cls = some handler →
      routingOnRecvMessage routes unpackFn type data = some (handler, msg)) ∧
    (routes.lookup cls = none →
      routingOnRecvMessage routes unpackFn type data = none) := by
  constructor
  · intro handler h
    simp [routingOnRecvMessage, hdec, h]
  · intro h
    simp [routingOnRecvMessage, hdec, h]

/-- Witness for C8: with a route table binding class 7 to handler 42,
dispatching a decoded class-7 message invokes handler 42 once with the
message, and dispatching a decoded class-9 message invokes nothing. -/
theorem route_dispatch_witness :
    routingOnRecvMessage [(7, 42)] (fun t d => (t.natAbs, d)) 7 [1] = some (42, [1]) ∧
    routingOnRecvMessage [(7, 42)] (fun t d => (t.natAbs, d)) 9 [1] = none :=
  ⟨(route_dispatch [(7, 42)] (fun t d => (t.natAbs, d)) 7 [1] 7 [1] rfl).1 42 (by decide),
   (route_dispatch [(7, 42)] (fun t d => (t.natAbs, d)) 9 [1] 9 [1] rfl).2 (by decide)⟩

end Rapid
